import Mathlib

/-!
Shallow embedding of the Komodo Periphery Home Assistant add-on installer
(install.py) together with theorems checking the specification's claims
about it.  Pure fragments of the installer become Lean functions; effectful
fragments (external command invocation, process exit) are modelled by
returning the list of invoked command argv vectors together with an
optional process exit code.
-/

namespace Install

/-- Fixed add-on identifier constants from the top of install.py. -/
def ADDON_NAME : String := "komodo-periphery"

/-- The machine-readable add-on slug used as the directory name under the
Home Assistant `addons` directory. -/
def ADDON_SLUG : String := "komodo_periphery"

/-- Repository name constant from install.py. -/
def REPO_NAME : String := "komodo-periphery-addon"

/-- An external command invocation: the argv list handed to run_command. -/
abbrev Cmd := List String

/-- The ambient system state the installer inspects: the lowered OS name
(platform.system().lower()), which executables are on the search path
(shutil.which), the USER environment variable, and the answer typed at the
Windows continuation prompt. -/
structure SysEnv where
  os_type : String
  onPath : String → Bool
  user : String
  windowsAnswer : String

/-- str.lower(): character-wise lower-casing of a string. -/
def lowerString (s : String) : String := String.mk (s.data.map Char.toLower)

/-- Installer.command_exists: shutil.which succeeds for the command. -/
def command_exists (env : SysEnv) (c : String) : Bool := env.onPath c

/-- Installer.detect_package_manager: the first executable of the fixed
ordered list found on the search path, if any. -/
def detect_package_manager (env : SysEnv) : Option String :=
  ["apt-get", "yum", "dnf", "pacman", "zypper"].find? (fun m => command_exists env m)

/-- The required tools checked by Installer.install_dependencies. -/
def required_tools : List String := ["git", "docker"]

/-- The sublist of required tools that are not on the search path. -/
def missing_tools (env : SysEnv) : List String :=
  required_tools.filter (fun t => !command_exists env t)

/-- Installer._install_linux_dependencies: the commands it invokes and the
exit code it terminates the process with, if any.  Mirrors the source: with
nothing missing it returns at once; with no package manager it exits 1;
otherwise it runs the manager-specific install commands (note the source
has branches only for apt-get, yum, dnf and pacman) and, when docker was
missing, the best-effort service/group configuration commands. -/
def _install_linux_dependencies (env : SysEnv) (missing : List String) :
    List Cmd × Option Nat :=
  if missing.isEmpty then ([], none)
  else
    match detect_package_manager env with
    | none => ([], some 1)
    | some pm =>
      let installCmds : List Cmd :=
        if pm = "apt-get" then
          [["sudo", "apt-get", "update"],
           ["sudo", "apt-get", "install", "-y"] ++ missing ++ ["docker-compose", "jq"]]
        else if pm = "yum" ∨ pm = "dnf" then
          [["sudo", pm, "update", "-y"],
           ["sudo", pm, "install", "-y"] ++ missing ++ ["docker-compose", "jq"]]
        else if pm = "pacman" then
          [["sudo", "pacman", "-Syu", "--noconfirm"] ++ missing ++ ["docker-compose", "jq"]]
        else []
      let svcCmds : List Cmd :=
        if missing.contains "docker" then
          [["sudo", "systemctl", "enable", "docker"],
           ["sudo", "systemctl", "start", "docker"],
           ["sudo", "usermod", "-aG", "docker", env.user]]
        else []
      (installCmds ++ svcCmds, none)

/-- Installer._install_macos_dependencies: exits 1 when Homebrew is absent
(before looking at the missing list); otherwise brew-installs the missing
tools plus jq when something is missing; docker absence only warns. -/
def _install_macos_dependencies (env : SysEnv) (missing : List String) :
    List Cmd × Option Nat :=
  if !command_exists env "brew" then ([], some 1)
  else
    ((if missing.isEmpty then [] else [["brew", "install"] ++ missing ++ ["jq"]]), none)

/-- Installer._check_windows_dependencies: never invokes a command; with
missing tools it prompts, and any answer whose lower-casing is not "y"
exits 1. -/
def _check_windows_dependencies (env : SysEnv) (missing : List String) :
    List Cmd × Option Nat :=
  if missing.isEmpty then ([], none)
  else if lowerString env.windowsAnswer = "y" then ([], none)
  else ([], some 1)

/-- Installer.install_dependencies: computes the missing-tool list and
dispatches on the OS family; an unknown OS exits 1. -/
def install_dependencies (env : SysEnv) : List Cmd × Option Nat :=
  let missing := missing_tools env
  if env.os_type = "linux" then _install_linux_dependencies env missing
  else if env.os_type = "darwin" then _install_macos_dependencies env missing
  else if env.os_type = "windows" then _check_windows_dependencies env missing
  else ([], some 1)

/-- Filesystem paths, as component lists. -/
abbrev Path := List String

/-- The built-in ordered candidate lists of Installer.find_ha_config,
keyed on the OS family (the windows list versus the list for every other
OS), with the user's home directory as a parameter. -/
def ha_paths (os_type : String) (home : Path) : List Path :=
  if os_type = "windows" then
    [home ++ [".homeassistant"],
     home ++ ["homeassistant"],
     home ++ ["Documents", "HomeAssistant"],
     home ++ ["Development", "homeassistant"],
     ["C:", "homeassistant"],
     ["C:", "config"]]
  else
    [home ++ [".homeassistant"],
     home ++ ["homeassistant"],
     ["usr", "share", "hassio", "homeassistant"],
     ["config"],
     home ++ ["Documents", "HomeAssistant"],
     home ++ ["Development", "homeassistant"]]

/-- The full candidate list: the HA_CONFIG_PATH override, when set, is
inserted at index 0 ahead of the built-in candidates. -/
def candidateList (os_type : String) (home : Path) (envPath : Option Path) :
    List Path :=
  match envPath with
  | some p => p :: ha_paths os_type home
  | none => ha_paths os_type home

/-- Installer.find_ha_config: accept the first candidate containing the
configuration.yaml marker (hasMarker models that existence check); when no
candidate matches, the interactively entered path is validated the same
way, and an invalid manual path exits 1.  Returns the accepted config
directory, if any, and the exit code, if any. -/
def find_ha_config (os_type : String) (home : Path) (envPath : Option Path)
    (hasMarker : Path → Bool) (manual : Path) : Option Path × Option Nat :=
  match (candidateList os_type home envPath).find? hasMarker with
  | some p => (some p, none)
  | none => if hasMarker manual then (some manual, none) else (none, some 1)

/-- The parsed argument record of main's ArgumentParser: two independent
store_true flags. -/
structure Args where
  dev : Bool
  production : Bool
deriving DecidableEq

/-- main's argument parsing: each of --dev and --production sets its flag;
any other token is an argument-parse error (argparse prints usage and exits
non-zero). -/
def parseArgs (argv : List String) : Except String Args :=
  argv.foldlM
    (fun a arg =>
      if arg = "--dev" then Except.ok { a with dev := true }
      else if arg = "--production" then Except.ok { a with production := true }
      else Except.error arg)
    { dev := false, production := false }

/-- The two provisioning pipelines. -/
inductive Pipeline where
  | development : Pipeline
  | production : Pipeline
deriving DecidableEq

/-- main's mode defaulting: when neither flag was given, dev is set. -/
def chooseMode (a : Args) : Args :=
  if !a.dev && !a.production then { a with dev := true } else a

/-- The pipelines main runs for a parsed argument record: dev first, and
production only in the elif branch when dev is unset. -/
def runPipelines (a : Args) : List Pipeline :=
  if a.dev then [Pipeline.development]
  else if a.production then [Pipeline.production]
  else []

/-- main, from parsing to pipeline selection: a parse error is a non-zero
exit, otherwise the defaulted mode decides which pipelines run. -/
def mainPipelines (argv : List String) : Except String (List Pipeline) :=
  match parseArgs argv with
  | Except.error e => Except.error e
  | Except.ok a => Except.ok (runPipelines (chooseMode a))

/-- The fixed machine-identifier → build-architecture table of
Installer.build_addon. -/
def arch_map : List (String × String) :=
  [("x86_64", "amd64"), ("amd64", "amd64"), ("aarch64", "aarch64"),
   ("arm64", "aarch64"), ("armv7l", "armv7")]

/-- arch_map.get(machine, "amd64"): table lookup with default "amd64". -/
def archFor (machine : String) : String :=
  match arch_map.lookup machine with
  | some a => a
  | none => "amd64"

/-- Installer.build_addon: lowers the reported machine identifier, maps it
through arch_map, and — only if docker is on the search path — invokes one
docker build command with the computed architecture and image tag; a
missing docker or a failed build exits 1. -/
def build_addon (env : SysEnv) (machineRaw : String) (buildSucceeds : Bool) :
    List Cmd × Option Nat :=
  let arch := archFor (lowerString machineRaw)
  let image_name := "ghcr.io/home-assistant/" ++ ADDON_SLUG ++ "-" ++ arch ++ ":latest"
  if !command_exists env "docker" then ([], some 1)
  else
    let buildCmd : Cmd :=
      ["docker", "build", "--build-arg", "BUILD_ARCH=" ++ arch, "-t", image_name, "."]
    if buildSucceeds then ([buildCmd], none) else ([buildCmd], some 1)

/-- The build_from mapping of the build.yaml document written literally by
Installer.setup_production. -/
def build_from : List (String × String) :=
  [("aarch64", "ghcr.io/home-assistant/alpine-base:3.21"),
   ("amd64", "ghcr.io/home-assistant/alpine-base:3.21"),
   ("armhf", "ghcr.io/home-assistant/alpine-base:3.21"),
   ("armv7", "ghcr.io/home-assistant/alpine-base:3.21"),
   ("i386", "ghcr.io/home-assistant/alpine-base:3.21")]

/-- Modelled from the spec: the add-on manifest (config.yaml) is not under
src/; per the repository's architecture-support documentation and the test
suite's valid-architecture list, its supported-architecture (arch) list is
the five Home Assistant build architectures. -/
def manifest_archs : List String := ["aarch64", "amd64", "armhf", "armv7", "i386"]

/-- A wall-clock instant, the input of the timestamp formatter. -/
structure DateTime where
  year : Nat
  month : Nat
  day : Nat
  hour : Nat
  minute : Nat
  second : Nat

/-- Two-digit zero padding, as strftime uses for month through second. -/
def pad2 (n : Nat) : String := if n < 10 then "0" ++ toString n else toString n

/-- Four-digit zero padding, as strftime uses for the year. -/
def pad4 (n : Nat) : String :=
  if n < 10 then "000" ++ toString n
  else if n < 100 then "00" ++ toString n
  else if n < 1000 then "0" ++ toString n
  else toString n

/-- Installer._get_timestamp: datetime.now().strftime of the fixed format
string (year, month, day, underscore, hour, minute, second). -/
def _get_timestamp (d : DateTime) : String :=
  pad4 d.year ++ pad2 d.month ++ pad2 d.day ++ "_" ++
    pad2 d.hour ++ pad2 d.minute ++ pad2 d.second

/-- A file-system tree: a plain file or a directory of named children. -/
inductive FTree where
  | file : FTree
  | dir (children : List (String × FTree)) : FTree

/-- fnmatch-style glob matching of a pattern (first argument) against a
name; the exclusion patterns of the source use only literal characters and
the star wildcard. -/
def globMatch : List Char → List Char → Bool
  | [], s => s.isEmpty
  | '*' :: ps, s => s.tails.any (fun suf => globMatch ps suf)
  | _ :: _, [] => false
  | p :: ps, c :: cs => (p == c) && globMatch ps cs

/-- fnmatch.fnmatch of a name against a pattern. -/
def fnmatch (name pat : String) : Bool := globMatch pat.toList name.toList

/-- The shutil.ignore_patterns argument in Installer.setup_local_dev. -/
def exclude_patterns : List String :=
  [".git", ".devcontainer", "*.py", "*.sh", "*.ps1", "DEVELOPMENT.md"]

/-- A directory-entry name is ignored when it matches any pattern. -/
def ignoredName (pats : List String) (name : String) : Bool :=
  pats.any (fun p => fnmatch name p)

mutual

/-- shutil.copytree with an ignore_patterns callback: at every directory
level, entries whose name matches a pattern are skipped, pruning whole
subtrees. -/
def copytree (pats : List String) : FTree → FTree
  | FTree.file => FTree.file
  | FTree.dir cs => FTree.dir (copyChildren pats cs)
termination_by structural t => t

/-- The per-directory filtering-and-recursion of copytree. -/
def copyChildren (pats : List String) :
    List (String × FTree) → List (String × FTree)
  | [] => []
  | (n, t) :: rest =>
    if ignoredName pats n then copyChildren pats rest
    else (n, copytree pats t) :: copyChildren pats rest
termination_by structural l => l

end

mutual

/-- The relative paths of all files in a tree. -/
def pathsOf : FTree → List (List String)
  | FTree.file => [[]]
  | FTree.dir cs => childPaths cs
termination_by structural t => t

/-- The file paths contributed by a directory's children. -/
def childPaths : List (String × FTree) → List (List String)
  | [] => []
  | (n, t) :: rest => (pathsOf t).map (fun p => n :: p) ++ childPaths rest
termination_by structural l => l

end

/-- An entry of the Home Assistant addons directory: an ordinary tree, or
the symlink to the project directory that setup_local_dev creates. -/
inductive AddonEntry where
  | tree (t : FTree) : AddonEntry
  | link : AddonEntry

/-- The addons directory, as a list of named entries. -/
abbrev AddonsDir := List (String × AddonEntry)

/-- Installer.setup_local_dev: when the target addons_subdir/ADDON_SLUG
exists it is renamed (shutil.move) to target ++ ".backup." ++ timestamp,
then the target is created as a symlink to the project directory, and when
symlink creation raises OSError, as a recursive copy of the project tree
filtered through the exclusion patterns. -/
def setup_local_dev (addons : AddonsDir) (now : DateTime) (symlinkOk : Bool)
    (cwd : FTree) : AddonsDir :=
  let backup := ADDON_SLUG ++ ".backup." ++ _get_timestamp now
  let addons1 :=
    if (addons.lookup ADDON_SLUG).isSome then
      addons.map (fun e => if e.1 = ADDON_SLUG then (backup, e.2) else e)
    else addons
  addons1 ++ [(ADDON_SLUG,
    if symlinkOk then AddonEntry.link
    else AddonEntry.tree (copytree exclude_patterns cwd))]

/-! Helper lemmas about association-list lookups used by the workspace
linking theorems. -/

/-- A lookup misses exactly when no entry carries the key. -/
theorem lookup_eq_none_iff {β : Type} (l : List (String × β)) (k : String) :
    l.lookup k = none ↔ ∀ e ∈ l, e.1 ≠ k := by
  induction l with
  | nil => simp
  | cons e rest ih =>
    rcases e with ⟨k', v⟩
    by_cases hk : k = k'
    · subst hk
      simp [List.lookup_cons]
    · have hb : (k == k') = false := by simp [hk]
      rw [List.lookup_cons, hb]
      simp [ih, Ne.symm hk]

/-- Lookup skips an append's left part when no entry there has the key. -/
theorem lookup_append_right {β : Type} (l₁ l₂ : List (String × β)) (k : String)
    (h : ∀ e ∈ l₁, e.1 ≠ k) : (l₁ ++ l₂).lookup k = l₂.lookup k := by
  induction l₁ with
  | nil => rfl
  | cons e rest ih =>
    rcases e with ⟨k', v⟩
    have hk : ¬(k = k') := fun hkk => h (k', v) (by simp) (by simp [hkk])
    have hb : (k == k') = false := by simp [hk]
    rw [List.cons_append, List.lookup_cons, hb]
    exact ih (fun e he => h e (by simp [he]))

/-- Lookup keeps an append's left answer when the key hits there. -/
theorem lookup_append_left {β : Type} (l₁ l₂ : List (String × β)) (k : String)
    (v : β) (h : l₁.lookup k = some v) : (l₁ ++ l₂).lookup k = some v := by
  induction l₁ with
  | nil => cases h
  | cons e rest ih =>
    rcases e with ⟨k', w⟩
    by_cases hk : k = k'
    · subst hk
      rw [List.lookup_cons, beq_self_eq_true] at h
      rw [List.cons_append, List.lookup_cons, beq_self_eq_true]
      exact h
    · have hb : (k == k') = false := by simp [hk]
      rw [List.lookup_cons, hb] at h
      rw [List.cons_append, List.lookup_cons, hb]
      exact ih h

/-- After the backup rename, the backup key holds the entry the renamed key
held (provided the backup key was fresh). -/
theorem lookup_rename_backup {β : Type} (l : List (String × β)) (k b : String)
    (hfresh : l.lookup b = none) :
    (l.map (fun e => if e.1 = k then (b, e.2) else e)).lookup b = l.lookup k := by
  induction l with
  | nil => rfl
  | cons e rest ih =>
    rcases e with ⟨k', v⟩
    have hbk : (b == k') = false := by
      cases hbk : (b == k') with
      | false => rfl
      | true =>
        rw [List.lookup_cons, hbk] at hfresh
        cases hfresh
    have hrest : rest.lookup b = none := by
      rw [List.lookup_cons, hbk] at hfresh
      exact hfresh
    by_cases hk : k' = k
    · subst hk
      have hmap : List.map (fun e => if e.1 = k' then (b, e.2) else e) ((k', v) :: rest) =
          (b, v) :: List.map (fun e => if e.1 = k' then (b, e.2) else e) rest := by
        simp
      rw [hmap, List.lookup_cons, beq_self_eq_true, List.lookup_cons, beq_self_eq_true]
    · have hkk : (k == k') = false := by simp [Ne.symm hk]
      have hmap : List.map (fun e => if e.1 = k then (b, e.2) else e) ((k', v) :: rest) =
          (k', v) :: List.map (fun e => if e.1 = k then (b, e.2) else e) rest := by
        simp [hk]
      rw [hmap, List.lookup_cons, hbk, List.lookup_cons, hkk]
      exact ih hrest

/-- The backup rename leaves no entry with the renamed key (when the backup
name differs from it). -/
theorem rename_no_key {β : Type} (l : List (String × β)) (k b : String)
    (hbk : b ≠ k) :
    ∀ e ∈ l.map (fun e => if e.1 = k then (b, e.2) else e), e.1 ≠ k := by
  intro e he
  rcases List.mem_map.mp he with ⟨f, _, rfl⟩
  by_cases hfk : f.1 = k
  · simpa [hfk] using hbk
  · simp [hfk]

/-- The backup rename leaves lookups of unrelated keys unchanged. -/
theorem lookup_rename_other {β : Type} (l : List (String × β)) (k b n : String)
    (hn : n ≠ k) (hnb : n ≠ b) :
    (l.map (fun e => if e.1 = k then (b, e.2) else e)).lookup n = l.lookup n := by
  induction l with
  | nil => rfl
  | cons e rest ih =>
    rcases e with ⟨k', v⟩
    by_cases hk : k' = k
    · subst hk
      have h1 : (n == b) = false := by simp [hnb]
      have h2 : (n == k') = false := by simp [hn]
      have hmap : List.map (fun e => if e.1 = k' then (b, e.2) else e) ((k', v) :: rest) =
          (b, v) :: List.map (fun e => if e.1 = k' then (b, e.2) else e) rest := by
        simp
      rw [hmap, List.lookup_cons, h1, List.lookup_cons, h2]
      exact ih
    · have hmap : List.map (fun e => if e.1 = k then (b, e.2) else e) ((k', v) :: rest) =
          (k', v) :: List.map (fun e => if e.1 = k then (b, e.2) else e) rest := by
        simp [hk]
      rw [hmap]
      by_cases hnk : n = k'
      · subst hnk
        rw [List.lookup_cons, beq_self_eq_true, List.lookup_cons, beq_self_eq_true]
      · have h3 : (n == k') = false := by simp [hnk]
        rw [List.lookup_cons, h3, List.lookup_cons, h3]
        exact ih

/-- The timestamped backup name is never the plain target name. -/
theorem backup_name_ne (now : DateTime) :
    ADDON_SLUG ++ ".backup." ++ _get_timestamp now ≠ ADDON_SLUG := by
  intro h
  have hl := congrArg String.length h
  rw [String.length_append, String.length_append] at hl
  have h8 : (".backup." : String).length = 8 := rfl
  rw [h8] at hl
  omega

/-- Whatever the addons directory held before, after setup_local_dev the
slug key holds exactly the freshly created entry: the symlink, or on
symlink failure the filtered copy of the project tree. -/
theorem setup_local_dev_lookup_slug (addons : AddonsDir) (now : DateTime)
    (symlinkOk : Bool) (cwd : FTree) :
    (setup_local_dev addons now symlinkOk cwd).lookup ADDON_SLUG =
      some (if symlinkOk then AddonEntry.link
            else AddonEntry.tree (copytree exclude_patterns cwd)) := by
  cases hex : (addons.lookup ADDON_SLUG).isSome with
  | true =>
    have hstep : setup_local_dev addons now symlinkOk cwd =
        addons.map (fun e => if e.1 = ADDON_SLUG
            then (ADDON_SLUG ++ ".backup." ++ _get_timestamp now, e.2) else e) ++
          [(ADDON_SLUG, if symlinkOk then AddonEntry.link
            else AddonEntry.tree (copytree exclude_patterns cwd))] := by
      unfold setup_local_dev
      rw [hex]
      simp
    rw [hstep]
    rw [lookup_append_right _ _ _
      (rename_no_key addons ADDON_SLUG _ (backup_name_ne now))]
    rw [List.lookup_cons, beq_self_eq_true]
  | false =>
    have hnone : addons.lookup ADDON_SLUG = none := by
      cases h : addons.lookup ADDON_SLUG with
      | none => rfl
      | some v => rw [h] at hex; cases hex
    have hstep : setup_local_dev addons now symlinkOk cwd =
        addons ++ [(ADDON_SLUG, if symlinkOk then AddonEntry.link
            else AddonEntry.tree (copytree exclude_patterns cwd))] := by
      unfold setup_local_dev
      rw [hex]
      simp
    rw [hstep]
    rw [lookup_append_right _ _ _ ((lookup_eq_none_iff addons ADDON_SLUG).mp hnone)]
    rw [List.lookup_cons, beq_self_eq_true]

mutual

/-- A path names a file in the filtered copy exactly when it names a file
in the original tree and none of its components matches an ignore
pattern. -/
theorem mem_pathsOf_copytree (pats : List String) (t : FTree) (p : List String) :
    p ∈ pathsOf (copytree pats t) ↔
      p ∈ pathsOf t ∧ ∀ c ∈ p, ignoredName pats c = false := by
  cases t with
  | file =>
    simp only [copytree, pathsOf, List.mem_singleton]
    constructor
    · rintro rfl; simp
    · rintro ⟨rfl, _⟩; rfl
  | dir cs =>
    simp only [copytree, pathsOf]
    exact mem_childPaths_copyChildren pats cs p

/-- The directory-children version of mem_pathsOf_copytree. -/
theorem mem_childPaths_copyChildren (pats : List String)
    (cs : List (String × FTree)) (p : List String) :
    p ∈ childPaths (copyChildren pats cs) ↔
      p ∈ childPaths cs ∧ ∀ c ∈ p, ignoredName pats c = false := by
  match cs with
  | [] => simp [copyChildren, childPaths]
  | (n, t) :: rest =>
    cases hig : ignoredName pats n with
    | true =>
      rw [copyChildren, if_pos hig]
      rw [mem_childPaths_copyChildren pats rest p]
      simp only [childPaths, List.mem_append, List.mem_map]
      constructor
      · rintro ⟨hp, hok⟩; exact ⟨Or.inr hp, hok⟩
      · rintro ⟨hp | hp, hok⟩
        · rcases hp with ⟨q, hq, rfl⟩
          have := hok n (by simp)
          rw [hig] at this
          cases this
        · exact ⟨hp, hok⟩
    | false =>
      rw [copyChildren, if_neg (by simp [hig])]
      simp only [childPaths, List.mem_append, List.mem_map]
      rw [mem_childPaths_copyChildren pats rest p]
      constructor
      · rintro (⟨q, hq, rfl⟩ | ⟨hp, hok⟩)
        · rw [mem_pathsOf_copytree pats t q] at hq
          refine ⟨Or.inl ⟨q, hq.1, rfl⟩, ?_⟩
          intro c hc
          rcases List.mem_cons.mp hc with rfl | hc
          · exact hig
          · exact hq.2 c hc
        · exact ⟨Or.inr hp, hok⟩
      · rintro ⟨⟨q, hq, rfl⟩ | hp, hok⟩
        · refine Or.inl ⟨q, ?_, rfl⟩
          rw [mem_pathsOf_copytree pats t q]
          exact ⟨hq, fun c hc => hok c (List.mem_cons_of_mem n hc)⟩
        · exact Or.inr ⟨hp, hok⟩

end

/-! The claim theorems. -/

/-- C2: with zypper the only package manager on the search path and git
missing, the installer detects zypper and announces installation, but
invokes no command at all — install.py has installation branches only for
apt-get, yum, dnf and pacman, so the claimed zypper-syntax installation of
the missing tools plus docker-compose and jq never happens. -/
theorem C2_zypper_installs_nothing :
    detect_package_manager ⟨"linux", fun c => c ∈ ["zypper", "docker"], "user", ""⟩ =
      some "zypper" ∧
    missing_tools ⟨"linux", fun c => c ∈ ["zypper", "docker"], "user", ""⟩ = ["git"] ∧
    install_dependencies ⟨"linux", fun c => c ∈ ["zypper", "docker"], "user", ""⟩ =
      ([], none) :=
  ⟨by decide, by decide, by decide⟩

/-- C3 counterexample: on macOS with git and docker both present — so no
required tool is missing — but Homebrew absent, the dependency step exits 1
instead of completing successfully. -/
theorem C3_macos_no_brew_aborts :
    missing_tools ⟨"darwin", fun c => c ∈ ["git", "docker"], "user", ""⟩ = [] ∧
    install_dependencies ⟨"darwin", fun c => c ∈ ["git", "docker"], "user", ""⟩ =
      ([], some 1) :=
  ⟨by decide, by decide⟩

/-- C3 (amended): with no required tool missing, the dependency step
invokes zero installation commands and succeeds on Linux and Windows, and
on macOS provided Homebrew is present (on macOS a missing Homebrew is
fatal regardless of the missing set). -/
theorem C3_no_missing_no_commands (env : SysEnv)
    (hgit : env.onPath "git" = true) (hdocker : env.onPath "docker" = true)
    (hos : env.os_type = "linux" ∨ env.os_type = "windows" ∨
      (env.os_type = "darwin" ∧ env.onPath "brew" = true)) :
    install_dependencies env = ([], none) := by
  have hm : missing_tools env = [] := by
    simp [missing_tools, required_tools, command_exists, hgit, hdocker]
  rcases hos with h | h | ⟨h, hb⟩
  · simp [install_dependencies, h, hm, _install_linux_dependencies]
  · simp [install_dependencies, h, hm, _check_windows_dependencies]
  · simp [install_dependencies, h, hm, _install_macos_dependencies, command_exists, hb]

/-- C3 witness: a Linux environment with git and docker present. -/
theorem C3_no_missing_no_commands_witness :
    install_dependencies ⟨"linux", fun _ => true, "user", ""⟩ = ([], none) :=
  C3_no_missing_no_commands _ rfl rfl (Or.inl rfl)

/-- C5 counterexample: supplying both --dev and --production together is
not rejected as an argument-parse error — parsing succeeds with both flags
set, and main runs the development pipeline. -/
theorem C5_both_flags_accepted :
    parseArgs ["--dev", "--production"] = Except.ok ⟨true, true⟩ ∧
    mainPipelines ["--dev", "--production"] = Except.ok [Pipeline.development] :=
  ⟨rfl, rfl⟩

/-- C5 (amended): every successfully parsed invocation runs exactly one
pipeline — the development pipeline whenever --dev is set or --production
is not (hence by default, and also when both flags are given, --dev taking
precedence), and the production pipeline exactly when --production alone
is set. -/
theorem C5_mode_selection (argv : List String) (a : Args)
    (h : parseArgs argv = Except.ok a) :
    mainPipelines argv =
      Except.ok [if a.dev || !a.production then Pipeline.development
                 else Pipeline.production] := by
  unfold mainPipelines
  rw [h]
  rcases a with ⟨d, p⟩
  cases d <;> cases p <;> rfl

/-- C5 witness: --production alone selects the production pipeline. -/
theorem C5_mode_selection_witness :
    mainPipelines ["--production"] = Except.ok [Pipeline.production] :=
  C5_mode_selection ["--production"] ⟨false, true⟩ rfl

/-- C7: the machine-identifier table maps exactly as listed — in particular
"aarch64" to "aarch64" — and every identifier outside the table falls back
to "amd64". -/
theorem C7_arch_mapping :
    archFor "aarch64" = "aarch64" ∧ archFor "x86_64" = "amd64" ∧
    archFor "amd64" = "amd64" ∧ archFor "arm64" = "aarch64" ∧
    archFor "armv7l" = "armv7" ∧
    ∀ m : String, m ∉ arch_map.map Prod.fst → archFor m = "amd64" := by
  refine ⟨rfl, rfl, rfl, rfl, rfl, ?_⟩
  intro m hm
  have hnone : arch_map.lookup m = none :=
    (lookup_eq_none_iff arch_map m).mpr
      (fun e he hek => hm (List.mem_map.mpr ⟨e, he, hek⟩))
  simp [archFor, hnone]

/-- C7 witness: an unmapped identifier defaults to "amd64". -/
theorem C7_arch_mapping_witness : archFor "riscv64" = "amd64" :=
  C7_arch_mapping.2.2.2.2.2 "riscv64" (by decide)

/-- C8: the generated build.yaml's build_from map has one entry per key,
covers every architecture of the add-on manifest's supported-architecture
list, and every base-image value is non-empty. -/
theorem C8_build_from_covers_manifest :
    (build_from.map Prod.fst).Nodup ∧
    ∀ a ∈ manifest_archs, ∃ v, build_from.lookup a = some v ∧ v ≠ "" := by
  refine ⟨by decide, ?_⟩
  intro a ha
  simp only [manifest_archs, List.mem_cons, List.not_mem_nil, or_false] at ha
  rcases ha with rfl | rfl | rfl | rfl | rfl <;> exact ⟨_, rfl, by decide⟩

/-- C8 witness: the armhf architecture has a non-empty base image. -/
theorem C8_build_from_covers_manifest_witness :
    ∃ v, build_from.lookup "armhf" = some v ∧ v ≠ "" :=
  C8_build_from_covers_manifest.2 "armhf" (by decide)

/-- C9: on Windows, with a required tool missing and a prompt answer whose
lower-casing is not "y", the process exits 1; and on Windows no
installation command is ever invoked, whatever the environment. -/
theorem C9_windows_decline_aborts :
    (∀ env : SysEnv, env.os_type = "windows" → missing_tools env ≠ [] →
      lowerString env.windowsAnswer ≠ "y" →
      install_dependencies env = ([], some 1)) ∧
    (∀ env : SysEnv, env.os_type = "windows" →
      (install_dependencies env).1 = []) := by
  constructor
  · intro env hos hmiss hans
    simp [install_dependencies, hos, _check_windows_dependencies,
      List.isEmpty_iff, hmiss, hans]
  · intro env hos
    have hwin : install_dependencies env =
        _check_windows_dependencies env (missing_tools env) := by
      simp [install_dependencies, hos]
    rw [hwin]
    unfold _check_windows_dependencies
    split
    · rfl
    · split
      · rfl
      · rfl

/-- C9 witness: everything missing and answer "n" on Windows. -/
theorem C9_windows_decline_aborts_witness :
    install_dependencies ⟨"windows", fun _ => false, "user", "n"⟩ = ([], some 1) :=
  C9_windows_decline_aborts.1 _ rfl (by decide) (by decide)

/-- C10: the image-build step checks for docker itself — with docker absent
it exits 1 without invoking any command — even though the earlier macOS
dependency step succeeds (it only warns about docker) whenever Homebrew is
present. -/
theorem C10_build_requires_docker :
    (∀ (env : SysEnv) (machine : String) (ok : Bool),
      env.onPath "docker" = false → build_addon env machine ok = ([], some 1)) ∧
    (∀ env : SysEnv, env.os_type = "darwin" → env.onPath "brew" = true →
      (install_dependencies env).2 = none) := by
  constructor
  · intro env machine ok h
    simp [build_addon, command_exists, h]
  · intro env hos hb
    have hmac : install_dependencies env =
        _install_macos_dependencies env (missing_tools env) := by
      simp [install_dependencies, hos]
    rw [hmac]
    simp [_install_macos_dependencies, command_exists, hb]

/-- C10 witness: no docker on the path means exit 1 and no commands. -/
theorem C10_build_requires_docker_witness :
    build_addon ⟨"linux", fun _ => false, "user", ""⟩ "x86_64" true = ([], some 1) :=
  C10_build_requires_docker.1 _ _ _ rfl

/-- C4: the workspace locator accepts the first candidate containing the
marker file in priority order; a valid HA_CONFIG_PATH override always wins
regardless of other valid candidates; and when no candidate matches, the
manually entered path is validated the same way, an invalid one exiting
1. -/
theorem C4_workspace_locator :
    (∀ (os : String) (home : Path) (p : Path) (hm : Path → Bool) (manual : Path),
      hm p = true →
      find_ha_config os home (some p) hm manual = (some p, none)) ∧
    (∀ (os : String) (home : Path) (envPath : Option Path) (hm : Path → Bool)
        (manual : Path) (l₁ : List Path) (p : Path) (l₂ : List Path),
      candidateList os home envPath = l₁ ++ p :: l₂ →
      (∀ q ∈ l₁, hm q = false) → hm p = true →
      find_ha_config os home envPath hm manual = (some p, none)) ∧
    (∀ (os : String) (home : Path) (envPath : Option Path) (hm : Path → Bool)
        (manual : Path),
      (∀ q ∈ candidateList os home envPath, hm q = false) →
      find_ha_config os home envPath hm manual =
        if hm manual then (some manual, none) else (none, some 1)) := by
  refine ⟨?_, ?_, ?_⟩
  · intro os home p hm manual hp
    have hfind : (candidateList os home (some p)).find? hm = some p := by
      unfold candidateList
      exact List.find?_cons_of_pos _ hp
    unfold find_ha_config
    rw [hfind]
  · intro os home envPath hm manual l₁ p l₂ hcand h₁ hp
    have hfind : (candidateList os home envPath).find? hm = some p := by
      rw [hcand, List.find?_append,
        List.find?_eq_none.mpr (fun x hx => by rw [h₁ x hx]; exact Bool.false_ne_true),
        List.find?_cons_of_pos _ hp]
      rfl
    unfold find_ha_config
    rw [hfind]
  · intro os home envPath hm manual hall
    have hfind : (candidateList os home envPath).find? hm = none :=
      List.find?_eq_none.mpr (fun x hx => by rw [hall x hx]; exact Bool.false_ne_true)
    unfold find_ha_config
    rw [hfind]

/-- C4 witness: an env override wins, the first marked built-in candidate
wins, and with no match an unmarked manual path exits 1. -/
theorem C4_workspace_locator_witness :
    find_ha_config "linux" ["home", "u"] (some ["cfg"])
      (fun q => q == ["cfg"]) ["m"] = (some ["cfg"], none) ∧
    find_ha_config "linux" [] none (fun q => q == ["config"]) ["m"] =
      (some ["config"], none) ∧
    find_ha_config "linux" [] none (fun _ => false) ["m"] = (none, some 1) := by
  refine ⟨C4_workspace_locator.1 "linux" ["home", "u"] ["cfg"] _ ["m"] (by decide),
    C4_workspace_locator.2.1 "linux" [] none _ ["m"]
      [[".homeassistant"], ["homeassistant"], ["usr", "share", "hassio", "homeassistant"]]
      ["config"]
      [["Documents", "HomeAssistant"], ["Development", "homeassistant"]]
      (by decide) (by decide) (by decide), ?_⟩
  have h3 := C4_workspace_locator.2.2 "linux" [] none (fun _ => false) ["m"]
    (fun q _ => rfl)
  simpa using h3

/-- C1: when the target addons_subdir/ADDON_SLUG already exists,
setup_local_dev renames it to target ++ ".backup." ++ timestamp before
creating the new entry: the old entry survives intact under the backup
name, the slug holds exactly the freshly created link (or copy), every
unrelated name is untouched, and afterwards exactly one entry — the new
non-backup one — carries the addon slug. -/
theorem C1_backup_on_conflict (addons : AddonsDir) (now : DateTime)
    (symlinkOk : Bool) (cwd : FTree) (e : AddonEntry)
    (hex : addons.lookup ADDON_SLUG = some e)
    (hfresh : addons.lookup (ADDON_SLUG ++ ".backup." ++ _get_timestamp now) = none) :
    (setup_local_dev addons now symlinkOk cwd).lookup
        (ADDON_SLUG ++ ".backup." ++ _get_timestamp now) = some e ∧
    (setup_local_dev addons now symlinkOk cwd).lookup ADDON_SLUG =
      some (if symlinkOk then AddonEntry.link
            else AddonEntry.tree (copytree exclude_patterns cwd)) ∧
    (∀ n : String, n ≠ ADDON_SLUG →
      n ≠ ADDON_SLUG ++ ".backup." ++ _get_timestamp now →
      (setup_local_dev addons now symlinkOk cwd).lookup n = addons.lookup n) ∧
    (setup_local_dev addons now symlinkOk cwd).countP
      (fun en => en.1 == ADDON_SLUG) = 1 := by
  have hexS : (addons.lookup ADDON_SLUG).isSome = true := by rw [hex]; rfl
  have hstep : setup_local_dev addons now symlinkOk cwd =
      addons.map (fun en => if en.1 = ADDON_SLUG
          then (ADDON_SLUG ++ ".backup." ++ _get_timestamp now, en.2) else en) ++
        [(ADDON_SLUG, if symlinkOk then AddonEntry.link
          else AddonEntry.tree (copytree exclude_patterns cwd))] := by
    unfold setup_local_dev
    rw [hexS]
    simp
  refine ⟨?_, setup_local_dev_lookup_slug addons now symlinkOk cwd, ?_, ?_⟩
  · rw [hstep]
    exact lookup_append_left _ _ _ _
      ((lookup_rename_backup addons ADDON_SLUG _ hfresh).trans hex)
  · intro n hn hnb
    rw [hstep]
    have hren := lookup_rename_other addons ADDON_SLUG
      (ADDON_SLUG ++ ".backup." ++ _get_timestamp now) n hn hnb
    cases hval : addons.lookup n with
    | some v =>
      exact lookup_append_left _ _ _ _ (hren.trans hval)
    | none =>
      rw [lookup_append_right _ _ _
        ((lookup_eq_none_iff _ n).mp (hren.trans hval))]
      have hns : (n == ADDON_SLUG) = false := by simp [hn]
      rw [List.lookup_cons, hns]
      rfl
  · rw [hstep, List.countP_append]
    have hzero : (addons.map (fun en => if en.1 = ADDON_SLUG
        then (ADDON_SLUG ++ ".backup." ++ _get_timestamp now, en.2) else en)).countP
        (fun en => en.1 == ADDON_SLUG) = 0 := by
      rw [List.countP_eq_zero]
      intro a ha
      have := rename_no_key addons ADDON_SLUG _ (backup_name_ne now) a ha
      simpa using this
    rw [hzero]
    simp

/-- C1 witness: a pre-existing symlink entry is backed up and replaced. -/
theorem C1_backup_on_conflict_witness :
    (setup_local_dev [(ADDON_SLUG, AddonEntry.link)] ⟨2025, 1, 2, 3, 4, 5⟩
        true FTree.file).lookup
      (ADDON_SLUG ++ ".backup." ++ _get_timestamp ⟨2025, 1, 2, 3, 4, 5⟩) =
      some AddonEntry.link :=
  (C1_backup_on_conflict [(ADDON_SLUG, AddonEntry.link)] ⟨2025, 1, 2, 3, 4, 5⟩
    true FTree.file AddonEntry.link rfl rfl).1

/-- C6: when symlink creation fails, setup_local_dev leaves at the slug a
recursive copy of the project tree, and a path names a file of that copy
exactly when it names a file of the project tree and none of its
components matches an exclusion pattern (.git, .devcontainer, *.py, *.sh,
*.ps1, DEVELOPMENT.md). -/
theorem C6_copy_fallback_contents (addons : AddonsDir) (now : DateTime)
    (cwd : FTree) :
    ∃ t : FTree,
      (setup_local_dev addons now false cwd).lookup ADDON_SLUG =
        some (AddonEntry.tree t) ∧
      t = copytree exclude_patterns cwd ∧
      ∀ p : List String,
        p ∈ pathsOf t ↔
          p ∈ pathsOf cwd ∧ ∀ c ∈ p, ignoredName exclude_patterns c = false := by
  refine ⟨copytree exclude_patterns cwd, ?_, rfl, ?_⟩
  · exact setup_local_dev_lookup_slug addons now false cwd
  · intro p
    exact mem_pathsOf_copytree exclude_patterns cwd p

end Install
